import Mathlib

set_option maxRecDepth 4000

/-!
Shallow embedding of the render orchestration subsystem of
src/backend/src/services/render-service.ts (and the request validation schema in
the render routes). JavaScript numbers that hold integral seconds/pixels are
modelled as Int; progress percentages as Rat. The helpers jsOrInt, jsOrOptInt
and jsOrOptStr model the JavaScript "v || d" default idiom, under which 0, the
empty string and an absent value are falsy.
-/

namespace InvideoStudio

/-- JavaScript v || d on numbers: 0 is falsy and yields the default. -/
def jsOrInt (v d : Int) : Int :=
  if v = 0 then d else v

/-- JavaScript v || d where v is a possibly absent number. -/
def jsOrOptInt (v : Option Int) (d : Int) : Int :=
  match v with
  | none => d
  | some n => if n = 0 then d else n

/-- JavaScript v || d where v is a possibly absent string: absent and empty are falsy. -/
def jsOrOptStr (v : Option String) (d : String) : String :=
  match v with
  | none => d
  | some s => if s = "" then d else s

/-- The single-quote character (code 39), written via its code point so the
filter templates can be assembled without quote literals. -/
def qc : Char := Char.ofNat 39

/-- The backslash character (code 92). -/
def bsC : Char := Char.ofNat 92

/-- A one-character string holding a single quote. -/
def sq : String := String.singleton qc

/-- Layer kinds, from the Layer interface of render-service.ts. -/
inductive LayerKind
  | video
  | image
  | text
  | audio
deriving DecidableEq, Repr

/-- The style payload fields the render service reads (zIndex, fontSize, color). -/
structure Style where
  zIndex : Option Int := none
  fontSize : Option Int := none
  color : Option String := none
deriving DecidableEq, Repr

/-- The Layer interface of render-service.ts. -/
structure Layer where
  id : String
  kind : LayerKind
  startTime : Int
  duration : Int
  x : Int
  y : Int
  width : Int
  height : Int
  content : Option String := none
  source : Option String := none
  style : Option Style := none
deriving DecidableEq, Repr

/-- The Scene interface of render-service.ts (transitions are not read by the planner). -/
structure Scene where
  id : String
  duration : Int
  layers : List Layer
deriving DecidableEq, Repr

/-- The RenderSettings interface of render-service.ts. -/
structure RenderSettings where
  width : Int
  height : Int
  frameRate : Int
  quality : String
deriving DecidableEq, Repr

/-- layer.style?.zIndex || 0, as read by the layer comparator. -/
def zIndexOf (l : Layer) : Int :=
  jsOrOptInt (l.style.bind Style.zIndex) 0

/-- The total preorder induced by the comparator at lines 260-263: compare by
startTime first, then by zIndex (default 0). Equal keys relate both ways, so a
stable sort under this relation keeps equal-key layers in input order. -/
def layerLE (a b : Layer) : Prop :=
  a.startTime < b.startTime ∨ (a.startTime = b.startTime ∧ zIndexOf a ≤ zIndexOf b)

instance layerLE.decRel : DecidableRel layerLE := fun a b =>
  decidable_of_iff
    (a.startTime < b.startTime ∨ (a.startTime = b.startTime ∧ zIndexOf a ≤ zIndexOf b))
    Iff.rfl

instance layerLE.isTotal : IsTotal Layer layerLE := by
  constructor
  intro a b
  rcases lt_trichotomy a.startTime b.startTime with h | h | h
  · exact Or.inl (Or.inl h)
  · rcases le_total (zIndexOf a) (zIndexOf b) with hz | hz
    · exact Or.inl (Or.inr ⟨h, hz⟩)
    · exact Or.inr (Or.inr ⟨h.symm, hz⟩)
  · exact Or.inr (Or.inl h)

instance layerLE.isTrans : IsTrans Layer layerLE := by
  constructor
  intro a b c hab hbc
  rcases hab with h1 | ⟨h1, hz1⟩
  · rcases hbc with h2 | ⟨h2, _⟩
    · exact Or.inl (h1.trans h2)
    · exact Or.inl (h2 ▸ h1)
  · rcases hbc with h2 | ⟨h2, hz2⟩
    · exact Or.inl (h1 ▸ h2)
    · exact Or.inr ⟨h1.trans h2, hz1.trans hz2⟩

/-- The sortedLayers expression of renderScene (lines 260-263).
Array.prototype.sort is stable, and the comparator returns the sign of the key
difference, so the result is the stable sort of the layer list under layerLE.
Mathlib insertionSort with a reflexive total preorder is such a stable sort. -/
def sortedLayers (scene : Scene) : List Layer :=
  scene.layers.insertionSort layerLE

/-- The scene object after renderScene ran once: Array.prototype.sort sorts the
layers array in place, so the caller keeps a scene whose layer list is sorted. -/
def sceneAfterPlanning (scene : Scene) : Scene :=
  { scene with layers := sortedLayers scene }

/-- The enable-window start emitted for a layer: layer.startTime || 0. -/
def enableFrom (l : Layer) : Int :=
  jsOrInt l.startTime 0

/-- The enable-window end emitted for a layer: (layer.startTime || 0) + (layer.duration || 5). -/
def enableTo (l : Layer) : Int :=
  jsOrInt l.startTime 0 + jsOrInt l.duration 5

/-- Transcription of getImageFilter (lines 347-356). -/
def getImageFilter (layer : Layer) (inputIndex : Nat) (settings : RenderSettings) : String :=
  let x := jsOrInt layer.x 0
  let y := jsOrInt layer.y 0
  let width := jsOrInt layer.width settings.width
  let height := jsOrInt layer.height settings.height
  let startTime := jsOrInt layer.startTime 0
  let duration := jsOrInt layer.duration 5
  "[" ++ toString inputIndex ++ ":v]scale=" ++ toString width ++ ":" ++ toString height ++
    "[img" ++ toString inputIndex ++ "];[0:v][img" ++ toString inputIndex ++ "]overlay=" ++
    toString x ++ ":" ++ toString y ++ ":enable=" ++ sq ++ "between(t," ++
    toString startTime ++ "," ++ toString (startTime + duration) ++ ")" ++ sq ++
    "[v" ++ toString inputIndex ++ "];"

/-- Transcription of getVideoFilter (lines 358-367). -/
def getVideoFilter (layer : Layer) (inputIndex : Nat) (settings : RenderSettings) : String :=
  let x := jsOrInt layer.x 0
  let y := jsOrInt layer.y 0
  let width := jsOrInt layer.width settings.width
  let height := jsOrInt layer.height settings.height
  let startTime := jsOrInt layer.startTime 0
  let duration := jsOrInt layer.duration 5
  "[" ++ toString inputIndex ++ ":v]scale=" ++ toString width ++ ":" ++ toString height ++
    "[vid" ++ toString inputIndex ++ "];[0:v][vid" ++ toString inputIndex ++ "]overlay=" ++
    toString x ++ ":" ++ toString y ++ ":enable=" ++ sq ++ "between(t," ++
    toString startTime ++ "," ++ toString (startTime + duration) ++ ")" ++ sq ++
    "[v" ++ toString inputIndex ++ "];"

/-- The quote replacement in getTextFilter: every single quote in the text is
replaced by backslash-quote, exactly as text.replace of the global quote pattern
with an escaped quote does. -/
def escapeTextChars : List Char → List Char
  | [] => []
  | c :: cs => if c = qc then bsC :: qc :: escapeTextChars cs else c :: escapeTextChars cs

/-- String form of the quote replacement in getTextFilter. -/
def escapeText (s : String) : String :=
  String.mk (escapeTextChars s.data)

/-- Transcription of getTextFilter (lines 369-379). -/
def getTextFilter (layer : Layer) (settings : RenderSettings) : String :=
  let x := jsOrInt layer.x 0
  let y := jsOrInt layer.y 0
  let fontSize := jsOrOptInt (layer.style.bind Style.fontSize) 24
  let fontColor := jsOrOptStr (layer.style.bind Style.color) "white"
  let startTime := jsOrInt layer.startTime 0
  let duration := jsOrInt layer.duration 5
  let text := jsOrOptStr layer.content "Text"
  "drawtext=text=" ++ sq ++ escapeText text ++ sq ++ ":x=" ++ toString x ++
    ":y=" ++ toString y ++ ":fontsize=" ++ toString fontSize ++
    ":fontcolor=" ++ fontColor ++ ":enable=" ++ sq ++ "between(t," ++
    toString startTime ++ "," ++ toString (startTime + duration) ++ ")" ++ sq ++ ";"

/-- One operation emitted by the per-layer loop of renderScene (lines 265-288).
Image, video and text operations also record the enable window the emitted
filter carries, so the temporal claims can be stated without parsing strings. -/
inductive Op
  | imageOp (layerId : String) (source : Option String) (winFrom winTo : Int) (filter : String)
  | videoOp (layerId : String) (source : Option String) (winFrom winTo : Int) (filter : String)
  | textOp (layerId : String) (winFrom winTo : Int) (filter : String)
  | audioOp (layerId : String) (source : Option String)
deriving DecidableEq, Repr

/-- The layer id an operation was emitted for. -/
def opLayerId : Op → String
  | .imageOp i _ _ _ _ => i
  | .videoOp i _ _ _ _ => i
  | .textOp i _ _ _ => i
  | .audioOp i _ => i

/-- The enable window an operation carries; audio inputs have none. -/
def opWindow : Op → Option (Int × Int)
  | .imageOp _ _ a b _ => some (a, b)
  | .videoOp _ _ a b _ => some (a, b)
  | .textOp _ a b _ => some (a, b)
  | .audioOp _ _ => none

/-- The filter-graph fragment an operation appends to filterComplex, if any. -/
def opFilter : Op → Option String
  | .imageOp _ _ _ _ f => some f
  | .videoOp _ _ _ _ f => some f
  | .textOp _ _ _ f => some f
  | .audioOp _ _ => none

/-- The per-layer emission loop of renderScene (lines 265-288): image, video and
audio layers consume an ffmpeg input index (starting at 1, index 0 being the
background canvas); text layers only append to the filter graph. -/
def emitOps (settings : RenderSettings) : List Layer → Nat → List Op
  | [], _ => []
  | layer :: rest, inputIndex =>
    match layer.kind with
    | .image =>
      Op.imageOp layer.id layer.source (enableFrom layer) (enableTo layer)
          (getImageFilter layer inputIndex settings) ::
        emitOps settings rest (inputIndex + 1)
    | .video =>
      Op.videoOp layer.id layer.source (enableFrom layer) (enableTo layer)
          (getVideoFilter layer inputIndex settings) ::
        emitOps settings rest (inputIndex + 1)
    | .text =>
      Op.textOp layer.id (enableFrom layer) (enableTo layer)
          (getTextFilter layer settings) ::
        emitOps settings rest inputIndex
    | .audio =>
      Op.audioOp layer.id layer.source :: emitOps settings rest (inputIndex + 1)

/-- The plan renderScene assembles before invoking the external tool: the black
background canvas input (line 252) and the ordered per-layer operations. -/
structure ScenePlan where
  baseCanvas : String
  ops : List Op
deriving DecidableEq, Repr

/-- The pure planning part of renderScene (lines 242-293): build the background
canvas description, sort the layers, and emit one operation per layer. -/
def renderScenePlan (scene : Scene) (settings : RenderSettings) : ScenePlan :=
  { baseCanvas :=
      "color=black:size=" ++ toString settings.width ++ "x" ++ toString settings.height ++
        ":duration=" ++ toString scene.duration
  , ops := emitOps settings (sortedLayers scene) 1 }

/-- The filterComplex string accumulated by the loop: the concatenation of the
per-operation filter fragments in emission order. -/
def filterComplex (p : ScenePlan) : String :=
  String.join (p.ops.filterMap opFilter)

/-- A layer kind is visual when the claims about overlay windows apply to it. -/
def isVisual : LayerKind → Prop
  | .image => True
  | .video => True
  | .text => True
  | .audio => False

instance : DecidablePred isVisual := fun k => by
  cases k <;> simp [isVisual] <;> infer_instance

/-- The ffmpeg expression between(x, min, max) is 1 exactly when min <= x <= max,
inclusive on both ends, per the ffmpeg expression documentation. The overlay and
drawtext operations emitted by the planner are enabled by
between(t, startTime, startTime + duration). -/
def betweenActive (lo hi t : Int) : Prop :=
  lo ≤ t ∧ t ≤ hi

instance (lo hi t : Int) : Decidable (betweenActive lo hi t) :=
  inferInstanceAs (Decidable (lo ≤ t ∧ t ≤ hi))

/-- The active window as claim C1 states it: the half-open interval
from startTime to startTime + duration, clipped to the scene duration. -/
def specActiveWindow (l : Layer) (sceneDuration t : Int) : Prop :=
  l.startTime ≤ t ∧ t < min (l.startTime + l.duration) sceneDuration

instance (l : Layer) (d t : Int) : Decidable (specActiveWindow l d t) :=
  inferInstanceAs (Decidable (_ ∧ _))

/-! Control plane: job statuses, the persisted record mirror, and cancelRender. -/

/-- Job lifecycle statuses used by the service and the persisted record. -/
inductive JobStatus
  | queued
  | processing
  | completed
  | failed
  | cancelled
deriving DecidableEq, Repr

/-- One row of the render_jobs table (only the fields cancelRender touches). -/
structure DbRow where
  id : String
  status : JobStatus
deriving DecidableEq, Repr

/-- Errors the control-plane operations can raise. The service only ever throws
the not-found error (the string Render job not found); no terminal-state error
exists in the source. -/
inductive ControlError
  | notFound
deriving DecidableEq, Repr

/-- The state cancelRender reads and writes: the queue job store (BullMQ keeps
finished jobs retrievable, with their states) and the persisted render_jobs rows. -/
structure ServiceState where
  jobs : List (String × JobStatus)
  db : List DbRow
deriving DecidableEq, Repr

/-- The renderQueue.getJob lookup: the stored state of the job, when present. -/
def lookupJob (jobs : List (String × JobStatus)) (jobId : String) : Option JobStatus :=
  (jobs.find? (fun j => j.1 == jobId)).map Prod.snd

/-- Transcription of cancelRender (lines 154-169): look the job up, throw the
not-found error when absent; otherwise remove it from the queue and set the
persisted status to cancelled, with no check of the current state. -/
def cancelRender (st : ServiceState) (jobId : String) : Except ControlError ServiceState :=
  match lookupJob st.jobs jobId with
  | none => Except.error ControlError.notFound
  | some _ =>
    Except.ok
      { jobs := st.jobs.filter (fun j => j.1 != jobId)
      , db := st.db.map (fun r =>
          if r.id == jobId then { r with status := JobStatus.cancelled } else r) }

/-! Request validation: the Joi schema of the render routes (renderJobSchema). -/

/-- Transcription of the Joi layer schema (render routes, lines 165-178):
id is a required non-empty string (Joi strings reject the empty string unless
explicitly allowed); startTime is at least 0; duration, width and height are
strictly positive; content and source are optional strings, but when present
they must be non-empty for the same reason. The source field is NOT required,
not even for video and image layers. -/
def validateLayer (l : Layer) : Bool :=
  l.id != "" &&
  (0 ≤ l.startTime : Bool) &&
  (0 < l.duration : Bool) &&
  (0 < l.width : Bool) &&
  (0 < l.height : Bool) &&
  (match l.content with
   | none => true
   | some c => c != "") &&
  (match l.source with
   | none => true
   | some s => s != "")

/-- Transcription of the Joi scene schema: required non-empty id, strictly
positive duration, and an array of layers each passing the layer schema. -/
def validateScene (s : Scene) : Bool :=
  s.id != "" && (0 < s.duration : Bool) && s.layers.all validateLayer

/-- Transcription of the top level of renderJobSchema: required non-empty
projectId and a non-empty scene array whose members pass the scene schema. -/
def validateRenderJob (projectId : String) (scenes : List Scene) : Bool :=
  projectId != "" && !scenes.isEmpty && scenes.all validateScene

/-! Execution model of processRenderJob: the ordered side effects of one
attempt, with an optional injected failure point. -/

/-- The point at which an attempt of processRenderJob fails, if any. -/
inductive FailPoint
  | sceneFail (i : Nat)
  | concatFail
  | uploadFail
deriving DecidableEq, Repr

/-- One observable side effect of processRenderJob, in program order: persisted
status writes, progress updates, creation of the working directory, the per-scene
render invocations, concatenation, upload, and removal of the working directory. -/
inductive Ev
  | dbStatus (s : JobStatus)
  | progress (p : ℚ)
  | mkdir
  | renderScene (i : Nat)
  | concat
  | upload
  | cleanup
deriving DecidableEq, Repr

/-- The progress value reported after scene i of n finishes (line 206):
5 + (i / scenes.length) * 80. -/
def sceneProgress (n i : Nat) : ℚ :=
  5 + ((i : ℚ) / (n : ℚ)) * 80

/-- The events of one completed loop iteration for scene i (lines 201-208):
the render invocation followed by its progress update. -/
def sceneEvents (n i : Nat) : List Ev :=
  [Ev.renderScene i, Ev.progress (sceneProgress n i)]

/-- The events of the first k completed scene iterations. -/
def sceneEventsUpTo (n k : Nat) : List Ev :=
  ((List.range k).map (sceneEvents n)).flatten

/-- The events preceding the scene loop (lines 190-195): status write to
processing, progress 5, then creation of the working directory. -/
def preludeEvents : List Ev :=
  [Ev.dbStatus JobStatus.processing, Ev.progress 5, Ev.mkdir]

/-- The tail of a fully successful attempt (lines 210-226): progress 85,
concatenation, progress 95, upload, cleanup, progress 100, status completed. -/
def successTail (n : Nat) : List Ev :=
  sceneEventsUpTo n n ++
    [Ev.progress 85, Ev.concat, Ev.progress 95, Ev.upload, Ev.cleanup,
     Ev.progress 100, Ev.dbStatus JobStatus.completed]

/-- The ordered side effects of one attempt of processRenderJob (lines 185-240)
on a job with n scenes, failing at the given point if any: the catch block
(lines 235-239) writes status failed and re-throws, and performs no cleanup.
A scene failure index at or beyond n cannot occur and degenerates to success. -/
def processRenderJobTrace (n : Nat) (fail : Option FailPoint) : List Ev :=
  match fail with
  | some (FailPoint.sceneFail k) =>
    if k < n then
      preludeEvents ++ sceneEventsUpTo n k ++ [Ev.renderScene k, Ev.dbStatus JobStatus.failed]
    else
      preludeEvents ++ successTail n
  | some FailPoint.concatFail =>
    preludeEvents ++ sceneEventsUpTo n n ++
      [Ev.progress 85, Ev.concat, Ev.dbStatus JobStatus.failed]
  | some FailPoint.uploadFail =>
    preludeEvents ++ sceneEventsUpTo n n ++
      [Ev.progress 85, Ev.concat, Ev.progress 95, Ev.upload, Ev.dbStatus JobStatus.failed]
  | none => preludeEvents ++ successTail n

/-- Whether an injected failure point actually takes effect on an n-scene job. -/
def failEffective (n : Nat) : Option FailPoint → Bool
  | none => false
  | some (FailPoint.sceneFail k) => k < n
  | some FailPoint.concatFail => true
  | some FailPoint.uploadFail => true

/-! The queue retry policy. -/

/-- The backoff sub-object of the BullMQ job options. -/
structure BackoffOptions where
  kind : String
  delay : Nat
deriving DecidableEq, Repr

/-- The BullMQ job options the service relies on. -/
structure JobOptions where
  removeOnComplete : Nat
  removeOnFail : Nat
  attempts : Nat
  backoff : BackoffOptions
deriving DecidableEq, Repr

/-- Transcription of defaultJobOptions (lines 73-81). -/
def defaultJobOptions : JobOptions :=
  { removeOnComplete := 10
  , removeOnFail := 5
  , attempts := 3
  , backoff := { kind := "exponential", delay := 5000 } }

/-- Modelled from the spec: the retry loop lives in the external queue library,
configured by defaultJobOptions, and is not part of the repository source; per
the spec, a failing attempt is re-run (after backoff) until an attempt succeeds
or the attempt budget is exhausted, and every attempt re-runs the same processor.
The outcome function gives the failure point, if any, of each attempt. -/
def runAttempts (n : Nat) (outcome : Nat → Option FailPoint) : Nat → Nat → List Ev
  | 0, _ => []
  | budget + 1, k =>
    if failEffective n (outcome k) then
      processRenderJobTrace n (outcome k) ++ runAttempts n outcome budget (k + 1)
    else
      processRenderJobTrace n (outcome k)

/-- The full side-effect trace of a job across its retry budget. -/
def runJob (n : Nat) (outcome : Nat → Option FailPoint) : List Ev :=
  runAttempts n outcome defaultJobOptions.attempts 0

/-- The progress values contained in a trace, in order. -/
def progressValues : List Ev → List ℚ
  | [] => []
  | Ev.progress p :: t => p :: progressValues t
  | Ev.dbStatus _ :: t => progressValues t
  | Ev.mkdir :: t => progressValues t
  | Ev.renderScene _ :: t => progressValues t
  | Ev.concat :: t => progressValues t
  | Ev.upload :: t => progressValues t
  | Ev.cleanup :: t => progressValues t

/-- The progress sequence ONE processing attempt reports: BullMQ initializes job
progress to 0 at enqueue (getRenderStatus reads job.progress || 0), followed by
the updates of that single attempt. A retried job reports the concatenation of
its attempts (runJob), so its overall sequence restarts at 5 with each retry. -/
def jobProgressSequence (n : Nat) (fail : Option FailPoint) : List ℚ :=
  0 :: progressValues (processRenderJobTrace n fail)

/-! The artifact publisher and the concatenation output name. -/

/-- Transcription of the file name in uploadFinalVideo (line 402):
projectId, an underscore, the current epoch milliseconds, and the fixed
mp4 extension, regardless of the requested output format. -/
def uploadFileName (projectId : String) (now : Nat) : String :=
  projectId ++ "_" ++ toString now ++ ".mp4"

/-- The content type passed to the storage upload (line 409). -/
def uploadContentType : String :=
  "video/mp4"

/-- Transcription of the output file name in concatenateScenes (line 316). -/
def concatOutputName (format : String) : String :=
  "final_output." ++ format

/-- The output formats admitted by renderJobSchema (line 196). -/
def outputFormats : List String :=
  ["mp4", "mov", "avi", "webm"]

/-! The ffmpeg quoting model for claim C7. -/

/-- Modelled from the ffmpeg documentation of quoting and escaping, which is the
operation syntax the spec refers to: outside quotes a backslash escapes the next
character; every character between single quotes is taken literally, and a quote
cannot be escaped inside a quoted string. The scan returns true when it ends
outside quotes with no dangling escape, i.e. when every quoted section of the
filter description is properly terminated. -/
def ffmpegQuoteScan : List Char → Bool → Bool
  | [], inQuote => !inQuote
  | c :: cs, true =>
    if c = qc then ffmpegQuoteScan cs false else ffmpegQuoteScan cs true
  | c :: cs, false =>
    if c = qc then ffmpegQuoteScan cs true
    else if c = bsC then
      match cs with
      | [] => false
      | _ :: rest => ffmpegQuoteScan rest false
    else ffmpegQuoteScan cs false

/-- A filter description is well formed when its quote scan closes every quote. -/
def wellFormedFilter (s : String) : Bool :=
  ffmpegQuoteScan s.data false

/-! Concrete fixtures used by counterexamples and witnesses. -/

/-- A fixed render settings value (the standard preset). -/
def settings0 : RenderSettings :=
  { width := 1280, height := 720, frameRate := 30, quality := "standard" }

/-- An image layer whose window [0, 5] sits strictly inside a 10-second scene. -/
def imgLayerA : Layer :=
  { id := "imgA", kind := LayerKind.image, startTime := 0, duration := 5,
    x := 10, y := 20, width := 100, height := 50, source := some "a.png" }

/-- A 10-second scene holding only imgLayerA. -/
def sceneA : Scene :=
  { id := "sceneA", duration := 10, layers := [imgLayerA] }

/-- An image layer starting after the end of its 3-second scene. -/
def lateLayer : Layer :=
  { id := "late", kind := LayerKind.image, startTime := 12, duration := 5,
    x := 0, y := 0, width := 100, height := 50, source := some "b.png" }

/-- A 3-second scene whose only layer starts at second 12. -/
def sceneLate : Scene :=
  { id := "sceneLate", duration := 3, layers := [lateLayer] }

/-- A text layer with id b, startTime 0 and no explicit z-index. -/
def textLayerB : Layer :=
  { id := "b", kind := LayerKind.text, startTime := 0, duration := 4,
    x := 0, y := 0, width := 100, height := 40, content := some "Beta" }

/-- A text layer with id a, startTime 0 and no explicit z-index. -/
def textLayerA : Layer :=
  { id := "a", kind := LayerKind.text, startTime := 0, duration := 4,
    x := 0, y := 0, width := 100, height := 40, content := some "Alpha" }

/-- A scene whose layer list holds textLayerB before textLayerA, with fully
equal sort keys, so only an id tie-break could reorder them. -/
def sceneTie : Scene :=
  { id := "tie", duration := 10, layers := [textLayerB, textLayerA] }

/-! Supporting lemmas about the planner. -/

/-- The JavaScript default v || 0 is the identity on numbers. -/
theorem jsOrInt_zero (v : Int) : jsOrInt v 0 = v := by
  unfold jsOrInt
  split <;> simp_all

/-- The emitted operations carry exactly the sorted layer ids, in order. -/
theorem emitOps_map_opLayerId (settings : RenderSettings) :
    ∀ (ls : List Layer) (idx : Nat),
      (emitOps settings ls idx).map opLayerId = ls.map Layer.id := by
  intro ls
  induction ls with
  | nil => intro idx; rfl
  | cons l rest ih =>
    intro idx
    cases h : l.kind <;> simp [emitOps, h, opLayerId, ih]

/-- Every visual layer in the emission list yields an operation carrying the
unclipped inclusive enable window of the layer. -/
theorem emitOps_exists_visual (settings : RenderSettings) :
    ∀ (ls : List Layer) (idx : Nat) (l : Layer), l ∈ ls → isVisual l.kind →
      ∃ o ∈ emitOps settings ls idx,
        opLayerId o = l.id ∧ opWindow o = some (enableFrom l, enableTo l) := by
  intro ls
  induction ls with
  | nil => intro idx l hl; cases hl
  | cons hd rest ih =>
    intro idx l hl hvis
    rcases List.mem_cons.mp hl with rfl | hmem
    · cases h : l.kind
      · refine ⟨Op.videoOp l.id l.source (enableFrom l) (enableTo l)
          (getVideoFilter l idx settings), ?_, rfl, rfl⟩
        simp [emitOps, h]
      · refine ⟨Op.imageOp l.id l.source (enableFrom l) (enableTo l)
          (getImageFilter l idx settings), ?_, rfl, rfl⟩
        simp [emitOps, h]
      · refine ⟨Op.textOp l.id (enableFrom l) (enableTo l)
          (getTextFilter l settings), ?_, rfl, rfl⟩
        simp [emitOps, h]
      · rw [h] at hvis; cases hvis
    · cases h : hd.kind
      · obtain ⟨o, ho, hspec⟩ := ih (idx + 1) l hmem hvis
        exact ⟨o, by simp [emitOps, h]; exact Or.inr ho, hspec⟩
      · obtain ⟨o, ho, hspec⟩ := ih (idx + 1) l hmem hvis
        exact ⟨o, by simp [emitOps, h]; exact Or.inr ho, hspec⟩
      · obtain ⟨o, ho, hspec⟩ := ih idx l hmem hvis
        exact ⟨o, by simp [emitOps, h]; exact Or.inr ho, hspec⟩
      · obtain ⟨o, ho, hspec⟩ := ih (idx + 1) l hmem hvis
        exact ⟨o, by simp [emitOps, h]; exact Or.inr ho, hspec⟩

/-- C1 counterexample: for the image layer with startTime 0 and duration 5 in a
10-second scene, the emitted operation is still active at t = 5, which the
half-open window of the claim excludes; and a layer starting at second 12 of a
3-second scene still yields an operation in the plan. -/
theorem c1_window_counterexample :
    betweenActive (enableFrom imgLayerA) (enableTo imgLayerA) 5
    ∧ ¬ specActiveWindow imgLayerA sceneA.duration 5
    ∧ lateLayer.startTime ≥ sceneLate.duration
    ∧ (renderScenePlan sceneLate settings0).ops.map opLayerId = ["late"] := by
  decide

/-- C1 amended: every visual layer of a scene yields an operation in the plan,
whatever its start time, and that operation carries the enable window from
startTime to startTime + (duration || 5), active inclusively on both ends and
never clipped to the scene duration. -/
theorem c1_window_amended :
    ∀ (scene : Scene) (settings : RenderSettings) (l : Layer),
      l ∈ scene.layers → isVisual l.kind →
      (∃ o ∈ (renderScenePlan scene settings).ops,
        opLayerId o = l.id ∧ opWindow o = some (enableFrom l, enableTo l))
      ∧ ∀ t : Int,
          betweenActive (enableFrom l) (enableTo l) t ↔
            l.startTime ≤ t ∧ t ≤ l.startTime + jsOrInt l.duration 5 := by
  intro scene settings l hl hvis
  constructor
  · apply emitOps_exists_visual settings (sortedLayers scene) 1 l _ hvis
    exact (List.mem_insertionSort layerLE).mpr hl
  · intro t
    unfold betweenActive enableFrom enableTo
    rw [jsOrInt_zero]

/-- C1 witness: the amended statement instantiated at the concrete scene. -/
theorem c1_window_amended_witness :
    (∃ o ∈ (renderScenePlan sceneA settings0).ops,
      opLayerId o = imgLayerA.id ∧
        opWindow o = some (enableFrom imgLayerA, enableTo imgLayerA))
    ∧ ∀ t : Int,
        betweenActive (enableFrom imgLayerA) (enableTo imgLayerA) t ↔
          imgLayerA.startTime ≤ t ∧
            t ≤ imgLayerA.startTime + jsOrInt imgLayerA.duration 5 :=
  c1_window_amended sceneA settings0 imgLayerA (by decide) (by decide)

/-- C2 counterexample: two layers with identical startTime and z-index but ids
b then a stay in input order, so the operation of the layer with the larger id
appears first and layer id is not a tie-break. -/
theorem c2_order_counterexample :
    (renderScenePlan sceneTie settings0).ops.map opLayerId = ["b", "a"]
    ∧ textLayerB.startTime = textLayerA.startTime
    ∧ zIndexOf textLayerB = zIndexOf textLayerA
    ∧ textLayerA.id ≠ textLayerB.id := by
  decide

/-- C2 amended: the planner orders operations by startTime ascending then
z-index (default 0) ascending; the sort is a permutation of the layers, equal
keys keep their input order (stability), two equal-start layers appear in
ascending z-index order, and the operation list follows the sorted layer order.
Layer id plays no part in the ordering. -/
theorem c2_order_amended :
    ∀ (scene : Scene) (settings : RenderSettings),
      (sortedLayers scene).Perm scene.layers
      ∧ List.Sorted layerLE (sortedLayers scene)
      ∧ (∀ a b : Layer, List.Sublist [a, b] scene.layers → layerLE a b →
          List.Sublist [a, b] (sortedLayers scene))
      ∧ (∀ a b : Layer, List.Sublist [a, b] (sortedLayers scene) →
          a.startTime = b.startTime → zIndexOf a ≤ zIndexOf b)
      ∧ (renderScenePlan scene settings).ops.map opLayerId =
          (sortedLayers scene).map Layer.id := by
  intro scene settings
  refine ⟨List.perm_insertionSort layerLE scene.layers,
    List.sorted_insertionSort layerLE scene.layers, ?_, ?_, ?_⟩
  · intro a b hsub hab
    exact List.pair_sublist_insertionSort hab hsub
  · intro a b hsub heq
    have hpw : List.Pairwise layerLE [a, b] :=
      (List.sorted_insertionSort layerLE scene.layers).sublist hsub
    have hab : layerLE a b := (List.pairwise_pair.mp hpw)
    rcases hab with hlt | ⟨_, hz⟩
    · exact absurd heq (ne_of_lt hlt)
    · exact hz
  · exact emitOps_map_opLayerId settings (sortedLayers scene) 1

/-- C2 witness: stability instantiated at the tie scene, whose layer list is
itself the pair, so the pair stays in input order in the sorted output. -/
theorem c2_order_amended_witness :
    List.Sublist [textLayerB, textLayerA] (sortedLayers sceneTie) :=
  (c2_order_amended sceneTie settings0).2.2.1 textLayerB textLayerA
    (List.Sublist.refl _) (by decide)

/-- C8: planning is deterministic and idempotent. The only state renderScene
mutates is the layer array, sorted in place; planning the mutated scene again
produces the identical plan, and the mutation itself is idempotent, because a
stable sort of an already sorted list is the identity. -/
theorem c8_plan_idempotent :
    ∀ (scene : Scene) (settings : RenderSettings),
      renderScenePlan (sceneAfterPlanning scene) settings = renderScenePlan scene settings
      ∧ sceneAfterPlanning (sceneAfterPlanning scene) = sceneAfterPlanning scene := by
  intro scene settings
  have hs : sortedLayers (sceneAfterPlanning scene) = sortedLayers scene := by
    unfold sortedLayers sceneAfterPlanning
    exact List.Sorted.insertionSort_eq
      (List.sorted_insertionSort layerLE scene.layers)
  constructor
  · unfold renderScenePlan
    rw [hs]
    simp [sceneAfterPlanning]
  · unfold sceneAfterPlanning
    congr 1

/-! Progress sequence lemmas for claim C9. -/

/-- Progress extraction distributes over trace concatenation. -/
theorem progressValues_append (a b : List Ev) :
    progressValues (a ++ b) = progressValues a ++ progressValues b := by
  induction a with
  | nil => rfl
  | cons e t ih => cases e <;> simp [progressValues, ih]

/-- The scene loop reports exactly the per-scene progress values, in order. -/
theorem progressValues_sceneEventsUpTo (n k : Nat) :
    progressValues (sceneEventsUpTo n k) = (List.range k).map (sceneProgress n) := by
  induction k with
  | zero => rfl
  | succ k ih =>
    unfold sceneEventsUpTo at ih ⊢
    rw [List.range_succ, List.map_append, List.flatten_append, progressValues_append, ih]
    simp [sceneEvents, progressValues, List.range_succ]

/-- Every per-scene progress value is at least the initial 5. -/
theorem sceneProgress_ge_five (n i : Nat) : (5 : ℚ) ≤ sceneProgress n i := by
  unfold sceneProgress
  have h0 : (0 : ℚ) ≤ (i : ℚ) / (n : ℚ) := div_nonneg (Nat.cast_nonneg i) (Nat.cast_nonneg n)
  nlinarith

/-- A per-scene progress value for a scene index below n stays at most 85. -/
theorem sceneProgress_le_85 (n i : Nat) (h : i < n) : sceneProgress n i ≤ 85 := by
  unfold sceneProgress
  have hn : (0 : ℚ) < (n : ℚ) := by
    exact_mod_cast Nat.lt_of_lt_of_le (Nat.zero_lt_succ 0) (Nat.succ_le_of_lt (Nat.lt_of_le_of_lt (Nat.zero_le i) h))
  have h1 : (i : ℚ) / (n : ℚ) ≤ 1 := (div_le_one hn).mpr (by exact_mod_cast h.le)
  nlinarith

/-- Per-scene progress values are non-decreasing in the scene index. -/
theorem sceneProgress_step (n i : Nat) : sceneProgress n i ≤ sceneProgress n (i + 1) := by
  unfold sceneProgress
  rcases Nat.eq_zero_or_pos n with h | h
  · subst h; simp
  · have hn : (0 : ℚ) < (n : ℚ) := by exact_mod_cast h
    have hstep : (i : ℚ) / (n : ℚ) ≤ ((i : ℚ) + 1) / (n : ℚ) :=
      (div_le_div_iff_of_pos_right hn).mpr (by linarith)
    push_cast
    nlinarith

/-- The mapped per-scene progress list is a non-decreasing chain. -/
theorem chain_map_sceneProgress (n k : Nat) :
    List.Chain' (· ≤ ·) ((List.range k).map (sceneProgress n)) := by
  rw [List.chain'_map]
  cases k with
  | zero => simp
  | succ m =>
    rw [List.chain'_range_succ]
    intro i _
    exact sceneProgress_step n i

/-- The progress sequence of any attempt shape is a non-decreasing chain:
0, then 5, then the per-scene values for the completed scenes, then any
suffix of late-phase values that starts at or above 85. -/
theorem chain_progressSequence (n k : Nat) (hk : k ≤ n) (suffix : List ℚ)
    (hs : List.Chain' (· ≤ ·) suffix)
    (hh : ∀ y ∈ suffix, (85 : ℚ) ≤ y) :
    List.Chain' (· ≤ ·)
      ((0 : ℚ) :: 5 :: ((List.range k).map (sceneProgress n) ++ suffix)) := by
  have hshape : (0 : ℚ) :: 5 :: ((List.range k).map (sceneProgress n) ++ suffix) =
      ((0 : ℚ) :: 5 :: (List.range k).map (sceneProgress n)) ++ suffix := by
    simp
  rw [hshape]
  apply List.chain'_append.mpr
  refine ⟨?_, hs, ?_⟩
  · apply List.chain'_cons.mpr
    refine ⟨by norm_num, ?_⟩
    apply List.chain'_cons'.mpr
    refine ⟨?_, chain_map_sceneProgress n k⟩
    intro y hy
    have hy' : y ∈ (List.range k).map (sceneProgress n) := List.mem_of_mem_head? hy
    obtain ⟨i, _, rfl⟩ := List.mem_map.mp hy'
    exact sceneProgress_ge_five n i
  · intro x hx y hy
    have hx' : x ∈ (0 : ℚ) :: 5 :: (List.range k).map (sceneProgress n) :=
      List.mem_of_mem_getLast? hx
    have hy85 : (85 : ℚ) ≤ y := hh y (List.mem_of_mem_head? hy)
    rcases List.mem_cons.mp hx' with rfl | hx'
    · linarith
    rcases List.mem_cons.mp hx' with rfl | hx'
    · linarith
    obtain ⟨i, hi, rfl⟩ := List.mem_map.mp hx'
    have : sceneProgress n i ≤ 85 :=
      sceneProgress_le_85 n i (Nat.lt_of_lt_of_le (List.mem_range.mp hi) hk)
    linarith

/-- Every value of the progress sequence shape lies in the interval [0, 100]. -/
theorem bounds_progressSequence (n k : Nat) (hk : k ≤ n) (suffix : List ℚ)
    (hsb : ∀ y ∈ suffix, (0 : ℚ) ≤ y ∧ y ≤ 100) :
    ∀ p ∈ ((0 : ℚ) :: 5 :: ((List.range k).map (sceneProgress n) ++ suffix)),
      0 ≤ p ∧ p ≤ 100 := by
  intro p hp
  rcases List.mem_cons.mp hp with rfl | hp
  · norm_num
  rcases List.mem_cons.mp hp with rfl | hp
  · norm_num
  rcases List.mem_append.mp hp with hp | hp
  · obtain ⟨i, hi, rfl⟩ := List.mem_map.mp hp
    have h5 := sceneProgress_ge_five n i
    have h85 := sceneProgress_le_85 n i (Nat.lt_of_lt_of_le (List.mem_range.mp hi) hk)
    constructor <;> linarith
  · exact hsb p hp

/-- The progress sequence of a fully successful run, in closed form. -/
theorem jps_none (n : Nat) : jobProgressSequence n none =
    (0 : ℚ) :: 5 :: ((List.range n).map (sceneProgress n) ++ [85, 95, 100]) := by
  show (0 : ℚ) :: progressValues (preludeEvents ++ successTail n) = _
  unfold preludeEvents successTail
  rw [progressValues_append, progressValues_append]
  rw [progressValues_sceneEventsUpTo]
  simp [progressValues]

/-- The progress sequence of a run failing at scene k < n, in closed form. -/
theorem jps_sceneFail (n k : Nat) (h : k < n) :
    jobProgressSequence n (some (FailPoint.sceneFail k)) =
      (0 : ℚ) :: 5 :: ((List.range k).map (sceneProgress n) ++ []) := by
  show (0 : ℚ) :: progressValues
      (if k < n then
        preludeEvents ++ sceneEventsUpTo n k ++ [Ev.renderScene k, Ev.dbStatus JobStatus.failed]
      else preludeEvents ++ successTail n) = _
  rw [if_pos h]
  rw [List.append_assoc, progressValues_append, progressValues_append]
  rw [progressValues_sceneEventsUpTo]
  simp [preludeEvents, progressValues]

/-- A scene failure index at or beyond n degenerates to the successful shape. -/
theorem jps_sceneFail_ge (n k : Nat) (h : ¬ k < n) :
    jobProgressSequence n (some (FailPoint.sceneFail k)) = jobProgressSequence n none := by
  show (0 : ℚ) :: progressValues
      (if k < n then
        preludeEvents ++ sceneEventsUpTo n k ++ [Ev.renderScene k, Ev.dbStatus JobStatus.failed]
      else preludeEvents ++ successTail n) = _
  rw [if_neg h]
  rfl

/-- The progress sequence of a run failing at concatenation, in closed form. -/
theorem jps_concatFail (n : Nat) :
    jobProgressSequence n (some FailPoint.concatFail) =
      (0 : ℚ) :: 5 :: ((List.range n).map (sceneProgress n) ++ [85]) := by
  show (0 : ℚ) :: progressValues
      (preludeEvents ++ sceneEventsUpTo n n ++
        [Ev.progress 85, Ev.concat, Ev.dbStatus JobStatus.failed]) = _
  rw [List.append_assoc, progressValues_append, progressValues_append]
  rw [progressValues_sceneEventsUpTo]
  simp [preludeEvents, progressValues]

/-- The progress sequence of a run failing at upload, in closed form. -/
theorem jps_uploadFail (n : Nat) :
    jobProgressSequence n (some FailPoint.uploadFail) =
      (0 : ℚ) :: 5 :: ((List.range n).map (sceneProgress n) ++ [85, 95]) := by
  show (0 : ℚ) :: progressValues
      (preludeEvents ++ sceneEventsUpTo n n ++
        [Ev.progress 85, Ev.concat, Ev.progress 95, Ev.upload, Ev.dbStatus JobStatus.failed]) = _
  rw [List.append_assoc, progressValues_append, progressValues_append]
  rw [progressValues_sceneEventsUpTo]
  simp [preludeEvents, progressValues]

/-- C9 amended: within a single processing attempt, whatever the scene count and
wherever (if anywhere) the attempt fails, the reported progress sequence starts
at 0 on enqueue, is non-decreasing, stays within [0, 100], and ends at 100 on
the successful path. Across retried attempts the whole-job sequence is NOT
non-decreasing (see the counterexample): each retry restarts at 5. -/
theorem c9_progress_monotone :
    ∀ (n : Nat) (fail : Option FailPoint),
      List.Chain' (· ≤ ·) (jobProgressSequence n fail)
      ∧ (∀ p ∈ jobProgressSequence n fail, 0 ≤ p ∧ p ≤ 100)
      ∧ (jobProgressSequence n fail).head? = some 0
      ∧ (fail = none → (jobProgressSequence n fail).getLast? = some 100) := by
  have hchain3 : List.Chain' (· ≤ ·) ([85, 95, 100] : List ℚ) := by
    refine List.chain'_cons.mpr ⟨by norm_num, ?_⟩
    refine List.chain'_cons.mpr ⟨by norm_num, ?_⟩
    exact List.chain'_singleton _
  have hchain2 : List.Chain' (· ≤ ·) ([85, 95] : List ℚ) :=
    List.chain'_cons.mpr ⟨by norm_num, List.chain'_singleton _⟩
  have hge3 : ∀ y ∈ ([85, 95, 100] : List ℚ), (85 : ℚ) ≤ y := by
    intro y hy
    simp only [List.mem_cons, List.not_mem_nil, or_false] at hy
    rcases hy with rfl | rfl | rfl <;> norm_num
  have hbd3 : ∀ y ∈ ([85, 95, 100] : List ℚ), (0 : ℚ) ≤ y ∧ y ≤ 100 := by
    intro y hy
    simp only [List.mem_cons, List.not_mem_nil, or_false] at hy
    rcases hy with rfl | rfl | rfl <;> norm_num
  have hge2 : ∀ y ∈ ([85, 95] : List ℚ), (85 : ℚ) ≤ y := by
    intro y hy
    simp only [List.mem_cons, List.not_mem_nil, or_false] at hy
    rcases hy with rfl | rfl <;> norm_num
  have hbd2 : ∀ y ∈ ([85, 95] : List ℚ), (0 : ℚ) ≤ y ∧ y ≤ 100 := by
    intro y hy
    simp only [List.mem_cons, List.not_mem_nil, or_false] at hy
    rcases hy with rfl | rfl <;> norm_num
  have hge1 : ∀ y ∈ ([85] : List ℚ), (85 : ℚ) ≤ y := by
    intro y hy
    simp only [List.mem_cons, List.not_mem_nil, or_false] at hy
    subst hy; norm_num
  have hbd1 : ∀ y ∈ ([85] : List ℚ), (0 : ℚ) ≤ y ∧ y ≤ 100 := by
    intro y hy
    simp only [List.mem_cons, List.not_mem_nil, or_false] at hy
    subst hy; norm_num
  have hnone : ∀ n : Nat,
      List.Chain' (· ≤ ·) (jobProgressSequence n none)
      ∧ (∀ p ∈ jobProgressSequence n none, 0 ≤ p ∧ p ≤ 100)
      ∧ (jobProgressSequence n none).getLast? = some 100 := by
    intro n
    rw [jps_none]
    refine ⟨chain_progressSequence n n le_rfl _ hchain3 hge3,
      bounds_progressSequence n n le_rfl _ hbd3, ?_⟩
    rw [show (0 : ℚ) :: 5 :: ((List.range n).map (sceneProgress n) ++ [85, 95, 100]) =
        ((0 : ℚ) :: 5 :: (List.range n).map (sceneProgress n)) ++ [85, 95, 100] by simp]
    rw [List.getLast?_append_of_ne_nil _ (by simp)]
    rfl
  intro n fail
  have hhead : (jobProgressSequence n fail).head? = some 0 := rfl
  match fail with
  | none =>
    obtain ⟨h1, h2, h3⟩ := hnone n
    exact ⟨h1, h2, hhead, fun _ => h3⟩
  | some (FailPoint.sceneFail k) =>
    by_cases hk : k < n
    · rw [jps_sceneFail n k hk] at *
      refine ⟨chain_progressSequence n k hk.le [] List.chain'_nil (by simp),
        bounds_progressSequence n k hk.le [] (by simp), hhead, by simp⟩
    · rw [jps_sceneFail_ge n k hk] at *
      obtain ⟨h1, h2, _⟩ := hnone n
      exact ⟨h1, h2, hhead, by simp⟩
  | some FailPoint.concatFail =>
    rw [jps_concatFail] at *
    exact ⟨chain_progressSequence n n le_rfl _ (List.chain'_singleton _) hge1,
      bounds_progressSequence n n le_rfl _ hbd1, hhead, by simp⟩
  | some FailPoint.uploadFail =>
    rw [jps_uploadFail] at *
    exact ⟨chain_progressSequence n n le_rfl _ hchain2 hge2,
      bounds_progressSequence n n le_rfl _ hbd2, hhead, by simp⟩

/-- C9 witness: the successful two-scene run ends at progress 100. -/
theorem c9_progress_monotone_witness :
    (jobProgressSequence 2 none).getLast? = some 100 :=
  (c9_progress_monotone 2 none).2.2.2 rfl

/-- An outcome function whose first attempt fails at upload and whose second
attempt succeeds. -/
def uploadThenOk : Nat → Option FailPoint :=
  fun k => if k = 0 then some FailPoint.uploadFail else none

/-- With budget left, an effective failure unrolls into the failing attempt
followed by the remaining attempts. -/
theorem runAttempts_effective (n : Nat) (outcome : Nat → Option FailPoint) (budget k : Nat)
    (h : failEffective n (outcome k) = true) :
    runAttempts n outcome (budget + 1) k =
      processRenderJobTrace n (outcome k) ++ runAttempts n outcome budget (k + 1) := by
  simp only [runAttempts]
  rw [if_pos h]

/-- An attempt with no effective failure is the last one run. -/
theorem runAttempts_ineffective (n : Nat) (outcome : Nat → Option FailPoint) (budget k : Nat)
    (h : failEffective n (outcome k) = false) :
    runAttempts n outcome (budget + 1) k = processRenderJobTrace n (outcome k) := by
  simp only [runAttempts]
  rw [if_neg (by simp [h])]

/-- C9 counterexample: over the whole job (the retrying run, not one attempt),
a one-scene job whose first attempt fails at upload and whose retry succeeds
reports 0, 5, 5, 85, 95, then 5 again as the retry restarts — the sequence
regresses from 95 back to 5, so it is not non-decreasing. -/
theorem c9_progress_counterexample :
    progressValues (runJob 1 uploadThenOk) =
      [5, 5, 85, 95, 5, 5, 85, 95, 100]
    ∧ ¬ List.Chain' (· ≤ ·) ((0 : ℚ) :: progressValues (runJob 1 uploadThenOk)) := by
  have heff0 : failEffective 1 (uploadThenOk 0) = true := by decide
  have heff1 : failEffective 1 (uploadThenOk 1) = false := by decide
  have hout0 : uploadThenOk 0 = some FailPoint.uploadFail := by decide
  have hout1 : uploadThenOk 1 = none := by decide
  have hrun : runJob 1 uploadThenOk =
      processRenderJobTrace 1 (some FailPoint.uploadFail) ++ processRenderJobTrace 1 none := by
    show runAttempts 1 uploadThenOk 3 0 = _
    rw [show (3 : Nat) = 2 + 1 from rfl, runAttempts_effective 1 uploadThenOk 2 0 heff0]
    rw [show (2 : Nat) = 1 + 1 from rfl, runAttempts_ineffective 1 uploadThenOk 1 1 heff1]
    rw [hout0, hout1]
  have hs : sceneProgress 1 0 = 5 := by
    unfold sceneProgress
    norm_num
  have h1 : progressValues (processRenderJobTrace 1 (some FailPoint.uploadFail)) =
      5 :: ((List.range 1).map (sceneProgress 1) ++ [85, 95]) :=
    congrArg List.tail (jps_uploadFail 1)
  have h2 : progressValues (processRenderJobTrace 1 none) =
      5 :: ((List.range 1).map (sceneProgress 1) ++ [85, 95, 100]) :=
    congrArg List.tail (jps_none 1)
  have h : progressValues (runJob 1 uploadThenOk) = [5, 5, 85, 95, 5, 5, 85, 95, 100] := by
    rw [hrun, progressValues_append, h1, h2]
    simp [List.range_succ, hs]
  refine ⟨h, ?_⟩
  rw [h]
  intro hc
  simp only [List.chain'_cons, List.chain'_singleton, and_true] at hc
  have h95 : (95 : ℚ) ≤ 5 := hc.2.2.2.2.1
  norm_num at h95

/-! Claim C3: cancellation of terminal jobs. -/

/-- A state holding one job that already completed, in the queue store and in
the persisted table. -/
def terminalState : ServiceState :=
  { jobs := [("j1", JobStatus.completed)]
  , db := [{ id := "j1", status := JobStatus.completed }] }

/-- C3 counterexample: cancelling the already completed job j1 does not fail
with a terminal-state error; it succeeds, removes the job, and overwrites the
persisted completed status with cancelled. -/
theorem c3_cancel_counterexample :
    lookupJob terminalState.jobs "j1" = some JobStatus.completed
    ∧ cancelRender terminalState "j1" =
        Except.ok { jobs := [], db := [{ id := "j1", status := JobStatus.cancelled }] } :=
  ⟨rfl, rfl⟩

/-- C3 amended: cancel on an unknown jobId fails with the not-found error, but
cancel on any job present in the queue store succeeds unconditionally — there is
no terminal-state check — and every persisted row of that job, whatever its
previous status (including completed and failed), is overwritten to cancelled. -/
theorem c3_cancel_amended :
    ∀ (st : ServiceState) (jobId : String),
      (lookupJob st.jobs jobId = none →
        cancelRender st jobId = Except.error ControlError.notFound)
      ∧ (∀ st', cancelRender st jobId = Except.ok st' →
          ∀ r ∈ st.db, r.id = jobId → DbRow.mk r.id JobStatus.cancelled ∈ st'.db) := by
  intro st jobId
  constructor
  · intro h
    unfold cancelRender
    rw [h]
  · intro st' hok r hr hid
    unfold cancelRender at hok
    cases h : lookupJob st.jobs jobId with
    | none => rw [h] at hok; cases hok
    | some s =>
      rw [h] at hok
      cases hok
      have : (if r.id == jobId then { r with status := JobStatus.cancelled } else r) ∈
          st.db.map (fun r =>
            if r.id == jobId then { r with status := JobStatus.cancelled } else r) :=
        List.mem_map_of_mem _ hr
      rw [if_pos (by simp [hid])] at this
      exact this

/-- C3 witness: the not-found branch at a concrete state and id. -/
theorem c3_cancel_amended_witness :
    cancelRender terminalState "nope" = Except.error ControlError.notFound :=
  (c3_cancel_amended terminalState "nope").1 (by decide)

/-! Claim C4: validation of missing or empty media sources. -/

/-- An image layer with no source reference at all; every other field is valid. -/
def noSourceLayer : Layer :=
  { id := "img1", kind := LayerKind.image, startTime := 0, duration := 2,
    x := 0, y := 0, width := 100, height := 100 }

/-- A valid scene whose only layer is the sourceless image layer. -/
def noSourceScene : Scene :=
  { id := "s1", duration := 5, layers := [noSourceLayer] }

/-- C4 counterexample: a scene with an image layer whose source is absent passes
request validation, the planner emits an operation for it with no source rather
than rejecting the scene, and the working directory is created before any scene
render starts — so no validation error precedes resource allocation. -/
theorem c4_validation_counterexample :
    validateRenderJob "p1" [noSourceScene] = true
    ∧ noSourceLayer.source = none
    ∧ (renderScenePlan noSourceScene settings0).ops.map opLayerId = ["img1"]
    ∧ (processRenderJobTrace 1 (some (FailPoint.sceneFail 0))).take 4 =
        [Ev.dbStatus JobStatus.processing, Ev.progress 5, Ev.mkdir, Ev.renderScene 0] := by
  decide

/-- C4 amended: a visual layer with an empty-string source IS rejected by the
request schema (before enqueue), but an absent source passes validation exactly
as a well-formed one does, and every processing trace allocates the working
directory in its prelude, before any render, whatever the failure point. -/
theorem c4_validation_amended :
    ∀ (l : Layer) (n : Nat) (fail : Option FailPoint),
      validateLayer { l with source := some "" } = false
      ∧ validateLayer { l with source := none } = validateLayer { l with source := some "ok" }
      ∧ (∃ rest, processRenderJobTrace n fail = preludeEvents ++ rest)
      ∧ ∀ i, Ev.renderScene i ∉ preludeEvents := by
  intro l n fail
  refine ⟨?_, ?_, ?_, ?_⟩
  · simp [validateLayer]
  · simp [validateLayer]
  · match fail with
    | some (FailPoint.sceneFail k) =>
      by_cases hk : k < n
      · exact ⟨_, by simp only [processRenderJobTrace]; rw [if_pos hk, List.append_assoc]⟩
      · exact ⟨_, by simp only [processRenderJobTrace]; rw [if_neg hk]⟩
    | some FailPoint.concatFail =>
      exact ⟨_, by simp only [processRenderJobTrace]; rw [List.append_assoc]⟩
    | some FailPoint.uploadFail =>
      exact ⟨_, by simp only [processRenderJobTrace]; rw [List.append_assoc]⟩
    | none => exact ⟨_, rfl⟩
  · intro i
    simp [preludeEvents]

/-- C4 witness: the amended statement at the concrete sourceless layer. -/
theorem c4_validation_amended_witness :
    validateLayer { noSourceLayer with source := some "" } = false :=
  (c4_validation_amended noSourceLayer 1 none).1

/-! Claim C5: the retry policy and when failed is recorded. -/

/-- An outcome function whose first attempt fails at scene 0 and whose second
attempt succeeds. -/
def retryOutcome : Nat → Option FailPoint :=
  fun k => if k = 0 then some (FailPoint.sceneFail 0) else none

/-- C5 counterexample: with a three-attempt budget, a job whose first attempt
fails and whose second succeeds still records status failed during the first
attempt — before the retry budget is exhausted — and then ends completed. -/
theorem c5_retry_counterexample :
    defaultJobOptions.attempts = 3
    ∧ Ev.dbStatus JobStatus.failed ∈ runJob 1 retryOutcome
    ∧ (runJob 1 retryOutcome).getLast? = some (Ev.dbStatus JobStatus.completed) := by
  decide

/-- C5 amended: the queue is configured with 3 attempts and exponential backoff
of 5000ms, applied uniformly to every thrown error (the job code makes no
validation/transient distinction); every failing attempt immediately persists
status failed via the catch block, and any effective failure with budget left
triggers a re-run of the same processor. -/
theorem c5_retry_amended :
    defaultJobOptions.attempts = 3
    ∧ defaultJobOptions.backoff = { kind := "exponential", delay := 5000 }
    ∧ (∀ (n : Nat) (fp : FailPoint), failEffective n (some fp) = true →
        Ev.dbStatus JobStatus.failed ∈ processRenderJobTrace n (some fp))
    ∧ (∀ (n : Nat) (outcome : Nat → Option FailPoint) (budget k : Nat),
        failEffective n (outcome k) = true →
        runAttempts n outcome (budget + 1) k =
          processRenderJobTrace n (outcome k) ++ runAttempts n outcome budget (k + 1)) := by
  refine ⟨rfl, rfl, ?_, ?_⟩
  · intro n fp hfp
    match fp with
    | FailPoint.sceneFail k =>
      have hk : k < n := by simpa [failEffective] using hfp
      simp only [processRenderJobTrace]
      rw [if_pos hk]
      simp
    | FailPoint.concatFail =>
      simp only [processRenderJobTrace]
      simp
    | FailPoint.uploadFail =>
      simp only [processRenderJobTrace]
      simp
  · intro n outcome budget k h
    simp only [runAttempts]
    rw [if_pos h]

/-- C5 witness: a scene failure on a one-scene job records status failed. -/
theorem c5_retry_amended_witness :
    Ev.dbStatus JobStatus.failed ∈ processRenderJobTrace 1 (some (FailPoint.sceneFail 0)) :=
  c5_retry_amended.2.2.1 1 (FailPoint.sceneFail 0) (by decide)

/-! Claim C6: cleanup of the working directory. -/

/-- C6 counterexample: when the only scene of a one-scene job fails, the trace
creates the working directory but never removes it. -/
theorem c6_cleanup_counterexample :
    Ev.mkdir ∈ processRenderJobTrace 1 (some (FailPoint.sceneFail 0))
    ∧ Ev.cleanup ∉ processRenderJobTrace 1 (some (FailPoint.sceneFail 0)) := by
  decide

/-- The scene loop events never include a cleanup. -/
theorem cleanup_not_mem_sceneEventsUpTo (n k : Nat) :
    Ev.cleanup ∉ sceneEventsUpTo n k := by
  unfold sceneEventsUpTo
  intro h
  obtain ⟨l, hl, hmem⟩ := List.mem_flatten.mp h
  obtain ⟨i, _, rfl⟩ := List.mem_map.mp hl
  simp [sceneEvents] at hmem

/-- C6 amended: the working directory is always created, but it is removed
exactly on the paths where no failure takes effect; every error path (scene
render, concatenation, upload) skips cleanup. -/
theorem c6_cleanup_amended :
    ∀ (n : Nat) (fail : Option FailPoint),
      Ev.mkdir ∈ processRenderJobTrace n fail
      ∧ (Ev.cleanup ∈ processRenderJobTrace n fail ↔ failEffective n fail = false) := by
  intro n fail
  have hmk : ∀ tail, Ev.mkdir ∈ preludeEvents ++ tail := by
    intro tail
    simp [preludeEvents]
  have hsucc : Ev.cleanup ∈ preludeEvents ++ successTail n := by
    simp [preludeEvents, successTail]
  match fail with
  | none => exact ⟨hmk _, by simp [processRenderJobTrace, failEffective, hsucc]⟩
  | some (FailPoint.sceneFail k) =>
    by_cases hk : k < n
    · refine ⟨?_, ?_⟩
      · simp only [processRenderJobTrace]
        rw [if_pos hk]
        exact hmk _
      · simp only [processRenderJobTrace]
        rw [if_pos hk]
        simp only [failEffective]
        constructor
        · intro h
          rcases List.mem_append.mp h with h | h
          · rcases List.mem_append.mp h with h | h
            · simp [preludeEvents] at h
            · exact absurd h (cleanup_not_mem_sceneEventsUpTo n k)
          · simp at h
        · intro h
          exact absurd hk (by simpa using h)
    · refine ⟨?_, ?_⟩
      · simp only [processRenderJobTrace]
        rw [if_neg hk]
        exact hmk _
      · simp only [processRenderJobTrace]
        rw [if_neg hk]
        simp only [failEffective]
        constructor
        · intro _
          simpa using hk
        · intro _
          exact hsucc
  | some FailPoint.concatFail =>
    refine ⟨by simp only [processRenderJobTrace]; rw [List.append_assoc]; exact hmk _, ?_⟩
    simp only [processRenderJobTrace]
    simp only [failEffective]
    constructor
    · intro h
      rcases List.mem_append.mp h with h | h
      · rcases List.mem_append.mp h with h | h
        · simp [preludeEvents] at h
        · exact absurd h (cleanup_not_mem_sceneEventsUpTo n n)
      · simp at h
    · intro h
      cases h
  | some FailPoint.uploadFail =>
    refine ⟨by simp only [processRenderJobTrace]; rw [List.append_assoc]; exact hmk _, ?_⟩
    simp only [processRenderJobTrace]
    simp only [failEffective]
    constructor
    · intro h
      rcases List.mem_append.mp h with h | h
      · rcases List.mem_append.mp h with h | h
        · simp [preludeEvents] at h
        · exact absurd h (cleanup_not_mem_sceneEventsUpTo n n)
      · simp at h
    · intro h
      cases h

/-- C6 witness: the successful two-scene run does perform cleanup. -/
theorem c6_cleanup_amended_witness :
    Ev.cleanup ∈ processRenderJobTrace 2 none :=
  (c6_cleanup_amended 2 none).2.mpr rfl

/-! Claim C7: text escaping and the well-formedness of the drawtext filter. -/

/-- A text content holding one literal apostrophe: the string a, quote, b. -/
def quoteContent : String := "a" ++ sq ++ "b"

/-- A text layer whose content carries a literal apostrophe. -/
def quoteTextLayer : Layer :=
  { id := "t1", kind := LayerKind.text, startTime := 0, duration := 3,
    x := 30, y := 40, width := 200, height := 50, content := some quoteContent }

/-- C7: the quote replacement does not keep the drawtext filter well formed.
Under the ffmpeg quoting rules a backslash is literal inside a quoted string, so
the backslash-quote the code inserts closes the text string early, leaves an odd
number of quotes in the filter, and the scan ends inside an unterminated quote.
The same layer with quote-free content yields a well-formed filter. -/
theorem c7_escaping_breaks_filter :
    wellFormedFilter (getTextFilter quoteTextLayer settings0) = false
    ∧ wellFormedFilter (getTextFilter { quoteTextLayer with content := some "ab" } settings0)
        = true := by
  constructor <;> rfl

/-! Claim C10: the published artifact name and content type. -/

/-- Character-level view of string concatenation, used to reason about suffixes. -/
theorem string_data_append (s t : String) : (s ++ t).data = s.data ++ t.data := by
  cases s
  cases t
  rfl

/-- C10: whatever admissible output format is requested, the published file name
is the project id, an underscore, the timestamp and a fixed .mp4 extension with
content type video/mp4, while the file on disk is final_output.format; for the
non-mp4 formats the published name does not carry the requested container
extension, and the content type does not name the requested container. -/
theorem c10_publish_always_mp4 :
    ∀ format ∈ outputFormats, ∀ (projectId : String) (now : Nat),
      (∃ stem, uploadFileName projectId now = stem ++ ".mp4")
      ∧ uploadContentType = "video/mp4"
      ∧ concatOutputName format = "final_output." ++ format
      ∧ (format ≠ "mp4" →
          (∀ stem, concatOutputName format ≠ stem ++ ".mp4")
          ∧ uploadContentType ≠ "video/" ++ format) := by
  intro format hfmt projectId now
  refine ⟨⟨projectId ++ "_" ++ toString now, ?_⟩, rfl, rfl, ?_⟩
  · unfold uploadFileName
    simp [String.append_assoc]
  · intro hne
    simp only [outputFormats, List.mem_cons, List.not_mem_nil, or_false] at hfmt
    rcases hfmt with rfl | rfl | rfl | rfl
    · exact absurd rfl hne
    all_goals
      refine ⟨?_, by decide⟩
      intro stem h
      have hd := congrArg String.data h
      rw [string_data_append] at hd
      have htake := congrArg (fun l => (List.reverse l).take 4) hd
      simp only [List.reverse_append] at htake
      rw [List.take_left' (by decide)] at htake
      exact absurd htake (by decide)

/-- C10 witness: the statement instantiated at the webm format. -/
theorem c10_publish_always_mp4_witness :
    (∃ stem, uploadFileName "proj" 1700000000000 = stem ++ ".mp4")
    ∧ uploadContentType = "video/mp4"
    ∧ concatOutputName "webm" = "final_output." ++ "webm"
    ∧ ("webm" ≠ "mp4" →
        (∀ stem, concatOutputName "webm" ≠ stem ++ ".mp4")
        ∧ uploadContentType ≠ "video/" ++ "webm") :=
  c10_publish_always_mp4 "webm" (by decide) "proj" 1700000000000

end InvideoStudio
